import Mathlib

/-!
Shallow embedding of `src/src/pages/Word.tsx` (vocabulary-learning session
loader).  Network effects are modelled by oracle streams: each potential
network interaction of the source code is one value of an outcome type, and
the functions below are the source functions with those outcomes passed in
explicitly.  UI `useState` cells become fields of an explicit state record.
-/

namespace WordApp

/-- The `WordData` interface of the source: one (english, korean) pair. -/
structure WordData where
  english : String
  korean : String
deriving DecidableEq, Repr

/-- Outcome of one round of `fetchWordFromAPI` (one word-API round trip and,
when a word is obtained, the dictionary-validation lookup for it):
* `netErr msg` — some `fetch`/`json` call threw an error with message `msg`
  (caught by the `catch (error)` block of the source);
* `notOk` — the word-API response had `!response.ok`;
* `word w dictOk` — the word API returned `w`; `dictOk` is `response.ok` of
  the dictionary-validation request `GET .../entries/en/w`. -/
inductive FetchRound where
  | netErr (msg : String)
  | notOk
  | word (w : String) (dictOk : Bool)
deriving DecidableEq, Repr

/-- Outcome of the one translation request of `translateEnglishToKorean`:
* `ok t` — HTTP success, `data.data.translations[0].translatedText = t`;
* `badStatus m` — `!response.ok`, where `m` is
  `errorData.error ? errorData.error.message : response.statusText`;
* `thrown m` — `fetch`/`json` threw an error with message `m`. -/
inductive TransNet where
  | ok (translatedText : String)
  | badStatus (errMsg : String)
  | thrown (msg : String)
deriving DecidableEq, Repr

/-- JavaScript `s.includes(pat)`: substring containment test. -/
def strIncludes (s pat : String) : Bool :=
  (s.splitOn pat).length != 1

/-- The `catch` block of `translateEnglishToKorean`: classify the message of
the caught error `e` (source lines 60–67). -/
def classifyTranslationError (msg : String) : String :=
  if strIncludes msg "API key not valid" then
    "번역 실패: API 키가 유효하지 않습니다."
  else if strIncludes msg "daily limit exceeded" then
    "번역 실패: 일일 사용량 한도 초과."
  else
    "번역 실패: " ++ msg

/-- Model of `translateEnglishToKorean` (source lines 29–68).  `apiKey` is
`GOOGLE_TRANSLATE_API_KEY` (`none` when unset), `net` the outcome of the one
translation request.  The source function always resolves to a string: a
`badStatus` outcome throws `Translation API error: <m>` inside the `try`, and
every thrown error is classified by the `catch` block. -/
def translateEnglishToKorean (apiKey : Option String) (net : TransNet)
    (englishWord : String) : String :=
  match apiKey with
  | none => "번역 API 키 없음"
  | some _ =>
    match net with
    | .ok t => t
    | .badStatus m => classifyTranslationError ("Translation API error: " ++ m)
    | .thrown m => classifyTranslationError m

/-- Model of `fetchWordFromAPI` (source lines 71–109), instrumented with the number of
word-API round trips it performs.  `rounds i` is the outcome of the round
executed at `retryCount = i`.  The recursive call
`return fetchWordFromAPI(retryCount + 1)` is returned without `await`, so a
rejection of the inner call is NOT re-caught by the outer `try`/`catch`: each
round's outcome is decided by `rounds retryCount` alone and the inner result
is passed through unchanged.  A thrown error is modelled as `Except.error`. -/
def fetchWordFromAPIRec (rounds : ℕ → FetchRound) (retryCount : ℕ) :
    Except String String × ℕ :=
  match rounds retryCount with
  | .netErr msg =>
    if h : retryCount < 3 then
      ((fetchWordFromAPIRec rounds (retryCount + 1)).1,
        (fetchWordFromAPIRec rounds (retryCount + 1)).2 + 1)
    else (.error msg, 1)
  | .notOk =>
    if h : retryCount < 3 then
      ((fetchWordFromAPIRec rounds (retryCount + 1)).1,
        (fetchWordFromAPIRec rounds (retryCount + 1)).2 + 1)
    else (.error "Could not fetch a random word.", 1)
  | .word w dictOk =>
    if dictOk then (.ok w, 1)
    else if h : retryCount < 3 then
      ((fetchWordFromAPIRec rounds (retryCount + 1)).1,
        (fetchWordFromAPIRec rounds (retryCount + 1)).2 + 1)
    else (.error "Could not find a valid word.", 1)
termination_by 3 - retryCount
decreasing_by all_goals omega

/-- Result of `fetchWordFromAPI` proper (the word, or the thrown error). -/
def fetchWordFromAPI (rounds : ℕ → FetchRound) (retryCount : ℕ) :
    Except String String :=
  (fetchWordFromAPIRec rounds retryCount).1

def MAX_ATTEMPTS_PER_WORD : ℕ := 5

/-- Result of processing one slot of the loader loop: the single `WordData`
pushed for the slot, whether `setError` was called for it, and the number of
iterations of the inner `while` loop. -/
structure SlotResult where
  pair : WordData
  errored : Bool
  attemptsUsed : ℕ
deriving DecidableEq, Repr

/-- Inner `while (!foundValidWord && attempts < MAX_ATTEMPTS_PER_WORD)` loop
of `fetchAndTranslateWords` for one slot (source lines 120–159).  `fenv a` is
the round stream of the `fetchWordFromAPI()` call made at attempt number `a`
(attempts are numbered 1..5 as by the `attempts++`); `tenv a` the outcome of
the translation request of attempt `a`.  `attempts` is the counter value
before the `attempts++` of the current iteration.  Since
`translateEnglishToKorean` never throws, a successful fetch always completes
the slot; on a failure at `attempts >= MAX_ATTEMPTS_PER_WORD` the placeholder
pair is pushed (with `e.message` truthiness modelled as non-emptiness). -/
def runSlotAux (fenv : ℕ → ℕ → FetchRound) (tenv : ℕ → TransNet)
    (apiKey : Option String) (attempts : ℕ) : SlotResult :=
  match fetchWordFromAPI (fenv (attempts + 1)) 0 with
  | .ok w =>
    { pair :=
        { english := w
          korean := translateEnglishToKorean apiKey (tenv (attempts + 1)) w }
      errored := false
      attemptsUsed := 1 }
  | .error msg =>
    if h : attempts + 1 ≥ MAX_ATTEMPTS_PER_WORD then
      { pair :=
          { english := "오류 단어"
            korean := "로딩 실패: " ++
              (if msg = "" then "알 수 없는 오류" else msg.take 30) ++ "..." }
        errored := true
        attemptsUsed := 1 }
    else
      { pair := (runSlotAux fenv tenv apiKey (attempts + 1)).pair
        errored := (runSlotAux fenv tenv apiKey (attempts + 1)).errored
        attemptsUsed := (runSlotAux fenv tenv apiKey (attempts + 1)).attemptsUsed + 1 }
termination_by MAX_ATTEMPTS_PER_WORD - attempts
decreasing_by simp only [MAX_ATTEMPTS_PER_WORD] at *; omega

/-- One slot of the loader loop, started with `attempts = 0`. -/
def runSlot (fenv : ℕ → ℕ → FetchRound) (tenv : ℕ → TransNet)
    (apiKey : Option String) : SlotResult :=
  runSlotAux fenv tenv apiKey 0

/-- The `for (let i = 0; i < count; i++)` loop of `fetchAndTranslateWords`
from slot `i` on: the list of pairs pushed onto `fetchedWords` and whether
any slot called `setError`.  `Fenv i` / `Tenv i` are the per-slot oracles. -/
def loaderLoop (Fenv : ℕ → ℕ → ℕ → FetchRound) (Tenv : ℕ → ℕ → TransNet)
    (apiKey : Option String) (count : ℕ) (i : ℕ) : List WordData × Bool :=
  if h : i < count then
    ((runSlot (Fenv i) (Tenv i) apiKey).pair ::
        (loaderLoop Fenv Tenv apiKey count (i + 1)).1,
      (runSlot (Fenv i) (Tenv i) apiKey).errored ||
        (loaderLoop Fenv Tenv apiKey count (i + 1)).2)
  else ([], false)
termination_by count - i
decreasing_by omega

/-- End state of `fetchAndTranslateWords` (source lines 112–170): the session
word list, the final `error` state and the selected `currentWordData`. -/
structure LoaderResult where
  words : List WordData
  errorMsg : Option String
  currentWordData : Option WordData
deriving DecidableEq, Repr

/-- Model of `fetchAndTranslateWords(count)` (source lines 112–170).  `error` is reset
to `null` on entry; a per-slot exhaustion sets it to the partial-failure
message; after the loop an empty `fetchedWords` replaces it with the
empty-list message, otherwise `currentWordData` becomes the first pair. -/
def fetchAndTranslateWords (Fenv : ℕ → ℕ → ℕ → FetchRound)
    (Tenv : ℕ → ℕ → TransNet) (apiKey : Option String) (count : ℕ) :
    LoaderResult :=
  { words := (loaderLoop Fenv Tenv apiKey count 0).1
    errorMsg :=
      if (loaderLoop Fenv Tenv apiKey count 0).1.isEmpty then
        some "단어를 불러오는 데 실패했습니다. 단어 목록이 비어 있습니다."
      else if (loaderLoop Fenv Tenv apiKey count 0).2 then
        some "일부 단어 로딩에 실패했습니다. 콘솔을 확인해주세요."
      else none
    currentWordData := (loaderLoop Fenv Tenv apiKey count 0).1.head? }

/-- The component's `useState` cells relevant to navigation. -/
structure UIState where
  currentScreen : ℕ
  currentWordIndex : ℕ
  currentWordData : Option WordData
  allWordsForSession : List WordData
  error : Option String
deriving DecidableEq, Repr

/-- Model of `handleNextWord` (source lines 196–204). -/
def handleNextWord (s : UIState) : UIState :=
  let nextIndex := s.currentWordIndex + 1
  if nextIndex < s.allWordsForSession.length then
    { s with
      currentWordIndex := nextIndex
      currentWordData := s.allWordsForSession[nextIndex]? }
  else
    { s with currentScreen := 3 }

/-- Model of `handlePreviousWord` (source lines 207–216). -/
def handlePreviousWord (s : UIState) : UIState :=
  if s.currentWordIndex > 0 then
    let prevIndex := s.currentWordIndex - 1
    { s with
      currentWordIndex := prevIndex
      currentWordData := s.allWordsForSession[prevIndex]?
      error := none }
  else
    { s with error := some "이전 단어가 없습니다." }

/-- Cursor invariant of the browsing screen: the cursor indexes into the
session list and the displayed pair is the list element at the cursor. -/
def cursorInv (s : UIState) : Prop :=
  s.currentWordIndex < s.allWordsForSession.length ∧
    s.currentWordData = s.allWordsForSession[s.currentWordIndex]?

instance (s : UIState) : Decidable (cursorInv s) := by
  unfold cursorInv; infer_instance

/-! ### One-step unfolding lemmas for `fetchWordFromAPIRec` -/

lemma fetchRec_netErr_step (rounds : ℕ → FetchRound) (r : ℕ) (msg : String)
    (hr : rounds r = FetchRound.netErr msg) :
    fetchWordFromAPIRec rounds r =
      if h : r < 3 then
        ((fetchWordFromAPIRec rounds (r + 1)).1,
          (fetchWordFromAPIRec rounds (r + 1)).2 + 1)
      else (.error msg, 1) := by
  rw [fetchWordFromAPIRec.eq_def, hr]

lemma fetchRec_notOk_step (rounds : ℕ → FetchRound) (r : ℕ)
    (hr : rounds r = FetchRound.notOk) :
    fetchWordFromAPIRec rounds r =
      if h : r < 3 then
        ((fetchWordFromAPIRec rounds (r + 1)).1,
          (fetchWordFromAPIRec rounds (r + 1)).2 + 1)
      else (.error "Could not fetch a random word.", 1) := by
  rw [fetchWordFromAPIRec.eq_def, hr]

lemma fetchRec_validWord_step (rounds : ℕ → FetchRound) (r : ℕ) (w : String)
    (hr : rounds r = FetchRound.word w true) :
    fetchWordFromAPIRec rounds r = (.ok w, 1) := by
  rw [fetchWordFromAPIRec.eq_def, hr]
  simp

lemma fetchRec_invalidWord_step (rounds : ℕ → FetchRound) (r : ℕ) (w : String)
    (hr : rounds r = FetchRound.word w false) :
    fetchWordFromAPIRec rounds r =
      if h : r < 3 then
        ((fetchWordFromAPIRec rounds (r + 1)).1,
          (fetchWordFromAPIRec rounds (r + 1)).2 + 1)
      else (.error "Could not find a valid word.", 1) := by
  rw [fetchWordFromAPIRec.eq_def, hr]
  simp

/-! ### Bounds and the dictionary gate for the word-source client -/

lemma fetchRec_attempts_le (rounds : ℕ → FetchRound) (r : ℕ) :
    (fetchWordFromAPIRec rounds r).2 ≤ 3 - r + 1 := by
  refine fetchWordFromAPIRec.induct rounds
    (fun r => (fetchWordFromAPIRec rounds r).2 ≤ 3 - r + 1)
    ?_ ?_ ?_ ?_ ?_ ?_ ?_ r
  · intro x msg hx hlt ih
    rw [fetchRec_netErr_step rounds x msg hx, dif_pos hlt]
    omega
  · intro x msg hx hlt
    rw [fetchRec_netErr_step rounds x msg hx, dif_neg hlt]
    omega
  · intro x hx hlt ih
    rw [fetchRec_notOk_step rounds x hx, dif_pos hlt]
    omega
  · intro x hx hlt
    rw [fetchRec_notOk_step rounds x hx, dif_neg hlt]
    omega
  · intro x w hx
    rw [fetchRec_validWord_step rounds x w hx]
    omega
  · intro x w b hx hb hlt ih
    obtain rfl : b = false := by
      cases b
      · rfl
      · exact absurd rfl hb
    rw [fetchRec_invalidWord_step rounds x w hx, dif_pos hlt]
    omega
  · intro x w b hx hb hlt
    obtain rfl : b = false := by
      cases b
      · rfl
      · exact absurd rfl hb
    rw [fetchRec_invalidWord_step rounds x w hx, dif_neg hlt]
    omega

lemma fetchRec_ok_dict_accepted (rounds : ℕ → FetchRound) (r : ℕ) :
    ∀ w, (fetchWordFromAPIRec rounds r).1 = Except.ok w →
      ∃ i, r ≤ i ∧ rounds i = FetchRound.word w true := by
  refine fetchWordFromAPIRec.induct rounds
    (fun r => ∀ w, (fetchWordFromAPIRec rounds r).1 = Except.ok w →
      ∃ i, r ≤ i ∧ rounds i = FetchRound.word w true)
    ?_ ?_ ?_ ?_ ?_ ?_ ?_ r
  · intro x msg hx hlt ih w hw
    rw [fetchRec_netErr_step rounds x msg hx, dif_pos hlt] at hw
    obtain ⟨i, hi, hrd⟩ := ih w hw
    exact ⟨i, by omega, hrd⟩
  · intro x msg hx hlt w hw
    rw [fetchRec_netErr_step rounds x msg hx, dif_neg hlt] at hw
    exact absurd hw (by simp)
  · intro x hx hlt ih w hw
    rw [fetchRec_notOk_step rounds x hx, dif_pos hlt] at hw
    obtain ⟨i, hi, hrd⟩ := ih w hw
    exact ⟨i, by omega, hrd⟩
  · intro x hx hlt w hw
    rw [fetchRec_notOk_step rounds x hx, dif_neg hlt] at hw
    exact absurd hw (by simp)
  · intro x w hx w' hw
    rw [fetchRec_validWord_step rounds x w hx] at hw
    obtain rfl : w = w' := by simpa using hw
    exact ⟨x, le_refl x, hx⟩
  · intro x w b hx hb hlt ih w' hw
    obtain rfl : b = false := by
      cases b
      · rfl
      · exact absurd rfl hb
    rw [fetchRec_invalidWord_step rounds x w hx, dif_pos hlt] at hw
    obtain ⟨i, hi, hrd⟩ := ih w' hw
    exact ⟨i, by omega, hrd⟩
  · intro x w b hx hb hlt w' hw
    obtain rfl : b = false := by
      cases b
      · rfl
      · exact absurd rfl hb
    rw [fetchRec_invalidWord_step rounds x w hx, dif_neg hlt] at hw
    exact absurd hw (by simp)

/-! ### Loader-loop lemmas -/

lemma loaderLoop_step (Fenv : ℕ → ℕ → ℕ → FetchRound) (Tenv : ℕ → ℕ → TransNet)
    (apiKey : Option String) (count i : ℕ) (h : i < count) :
    loaderLoop Fenv Tenv apiKey count i =
      ((runSlot (Fenv i) (Tenv i) apiKey).pair ::
          (loaderLoop Fenv Tenv apiKey count (i + 1)).1,
        (runSlot (Fenv i) (Tenv i) apiKey).errored ||
          (loaderLoop Fenv Tenv apiKey count (i + 1)).2) := by
  rw [loaderLoop.eq_def, dif_pos h]

lemma loaderLoop_end (Fenv : ℕ → ℕ → ℕ → FetchRound) (Tenv : ℕ → ℕ → TransNet)
    (apiKey : Option String) (count i : ℕ) (h : ¬ i < count) :
    loaderLoop Fenv Tenv apiKey count i = ([], false) := by
  rw [loaderLoop.eq_def, dif_neg h]

lemma loaderLoop_length (Fenv : ℕ → ℕ → ℕ → FetchRound)
    (Tenv : ℕ → ℕ → TransNet) (apiKey : Option String) (count i : ℕ) :
    (loaderLoop Fenv Tenv apiKey count i).1.length = count - i := by
  refine loaderLoop.induct Fenv Tenv apiKey count
    (fun i => (loaderLoop Fenv Tenv apiKey count i).1.length = count - i)
    ?_ ?_ i
  · intro x hx ih
    rw [loaderLoop_step Fenv Tenv apiKey count x hx]
    simp only [List.length_cons, ih]
    omega
  · intro x hx
    rw [loaderLoop_end Fenv Tenv apiKey count x hx]
    simp only [List.length_nil]
    omega

lemma loaderLoop_getElem (Fenv : ℕ → ℕ → ℕ → FetchRound)
    (Tenv : ℕ → ℕ → TransNet) (apiKey : Option String) (count i : ℕ) :
    ∀ j, i + j < count →
      (loaderLoop Fenv Tenv apiKey count i).1[j]? =
        some (runSlot (Fenv (i + j)) (Tenv (i + j)) apiKey).pair := by
  refine loaderLoop.induct Fenv Tenv apiKey count
    (fun i => ∀ j, i + j < count →
      (loaderLoop Fenv Tenv apiKey count i).1[j]? =
        some (runSlot (Fenv (i + j)) (Tenv (i + j)) apiKey).pair)
    ?_ ?_ i
  · intro x hx ih j hj
    rw [loaderLoop_step Fenv Tenv apiKey count x hx]
    cases j with
    | zero => simp
    | succ j' =>
      have hidx : x + 1 + j' = x + (j' + 1) := by omega
      dsimp only
      rw [List.getElem?_cons_succ, ih j' (by omega), hidx]
  · intro x hx j hj
    omega

/-! ### One-step unfolding lemmas for `runSlotAux` -/

lemma max_attempts_eq : MAX_ATTEMPTS_PER_WORD = 5 := rfl

lemma runSlotAux_ok_step (fenv : ℕ → ℕ → FetchRound) (tenv : ℕ → TransNet)
    (apiKey : Option String) (attempts : ℕ) (w : String)
    (hf : fetchWordFromAPI (fenv (attempts + 1)) 0 = Except.ok w) :
    runSlotAux fenv tenv apiKey attempts =
      { pair :=
          { english := w
            korean := translateEnglishToKorean apiKey (tenv (attempts + 1)) w }
        errored := false
        attemptsUsed := 1 } := by
  rw [runSlotAux.eq_def, hf]

lemma runSlotAux_exhaust_step (fenv : ℕ → ℕ → FetchRound) (tenv : ℕ → TransNet)
    (apiKey : Option String) (attempts : ℕ) (msg : String)
    (hf : fetchWordFromAPI (fenv (attempts + 1)) 0 = Except.error msg)
    (hge : attempts + 1 ≥ MAX_ATTEMPTS_PER_WORD) :
    runSlotAux fenv tenv apiKey attempts =
      { pair :=
          { english := "오류 단어"
            korean := "로딩 실패: " ++
              (if msg = "" then "알 수 없는 오류" else msg.take 30) ++ "..." }
        errored := true
        attemptsUsed := 1 } := by
  rw [runSlotAux.eq_def, hf]
  simp only [dif_pos hge]

lemma runSlotAux_retry_step (fenv : ℕ → ℕ → FetchRound) (tenv : ℕ → TransNet)
    (apiKey : Option String) (attempts : ℕ) (msg : String)
    (hf : fetchWordFromAPI (fenv (attempts + 1)) 0 = Except.error msg)
    (hlt : ¬ attempts + 1 ≥ MAX_ATTEMPTS_PER_WORD) :
    runSlotAux fenv tenv apiKey attempts =
      { pair := (runSlotAux fenv tenv apiKey (attempts + 1)).pair
        errored := (runSlotAux fenv tenv apiKey (attempts + 1)).errored
        attemptsUsed := (runSlotAux fenv tenv apiKey (attempts + 1)).attemptsUsed + 1 } := by
  rw [runSlotAux.eq_def, hf]
  simp only [dif_neg hlt]

/-! ### Slot-level facts -/

lemma runSlotAux_attempts_le (fenv : ℕ → ℕ → FetchRound) (tenv : ℕ → TransNet)
    (apiKey : Option String) (attempts : ℕ) :
    attempts < MAX_ATTEMPTS_PER_WORD →
      (runSlotAux fenv tenv apiKey attempts).attemptsUsed ≤
        MAX_ATTEMPTS_PER_WORD - attempts := by
  refine runSlotAux.induct fenv tenv apiKey
    (fun attempts => attempts < MAX_ATTEMPTS_PER_WORD →
      (runSlotAux fenv tenv apiKey attempts).attemptsUsed ≤
        MAX_ATTEMPTS_PER_WORD - attempts)
    ?_ ?_ ?_ attempts
  · intro x w hf hx
    rw [runSlotAux_ok_step fenv tenv apiKey x w hf]
    simp only
    omega
  · intro x msg hf hge hx
    rw [runSlotAux_exhaust_step fenv tenv apiKey x msg hf hge]
    simp only
    omega
  · intro x msg hf hlt ih hx
    rw [runSlotAux_retry_step fenv tenv apiKey x msg hf hlt]
    have := ih (by omega)
    simp only at this ⊢
    omega

lemma runSlotAux_all_fail (fenv : ℕ → ℕ → FetchRound) (tenv : ℕ → TransNet)
    (apiKey : Option String) (attempts : ℕ) :
    attempts < MAX_ATTEMPTS_PER_WORD →
      (∀ b, attempts + 1 ≤ b → b ≤ MAX_ATTEMPTS_PER_WORD →
        ∃ m, fetchWordFromAPI (fenv b) 0 = Except.error m) →
      ∃ m, fetchWordFromAPI (fenv MAX_ATTEMPTS_PER_WORD) 0 = Except.error m ∧
        runSlotAux fenv tenv apiKey attempts =
          { pair :=
              { english := "오류 단어"
                korean := "로딩 실패: " ++
                  (if m = "" then "알 수 없는 오류" else m.take 30) ++ "..." }
            errored := true
            attemptsUsed := MAX_ATTEMPTS_PER_WORD - attempts } := by
  refine runSlotAux.induct fenv tenv apiKey
    (fun attempts => attempts < MAX_ATTEMPTS_PER_WORD →
      (∀ b, attempts + 1 ≤ b → b ≤ MAX_ATTEMPTS_PER_WORD →
        ∃ m, fetchWordFromAPI (fenv b) 0 = Except.error m) →
      ∃ m, fetchWordFromAPI (fenv MAX_ATTEMPTS_PER_WORD) 0 = Except.error m ∧
        runSlotAux fenv tenv apiKey attempts =
          { pair :=
              { english := "오류 단어"
                korean := "로딩 실패: " ++
                  (if m = "" then "알 수 없는 오류" else m.take 30) ++ "..." }
            errored := true
            attemptsUsed := MAX_ATTEMPTS_PER_WORD - attempts })
    ?_ ?_ ?_ attempts
  · intro x w hf hx hall
    obtain ⟨m, hm⟩ := hall (x + 1) (le_refl _) (by omega)
    rw [hf] at hm
    exact absurd hm (by simp)
  · intro x msg hf hge hx hall
    have he : x + 1 = MAX_ATTEMPTS_PER_WORD := by omega
    refine ⟨msg, by rw [← he]; exact hf, ?_⟩
    rw [runSlotAux_exhaust_step fenv tenv apiKey x msg hf hge]
    have hx1 : MAX_ATTEMPTS_PER_WORD - x = 1 := by omega
    rw [hx1]
  · intro x msg hf hlt ih hx hall
    obtain ⟨m, hm, hrec⟩ := ih (by omega)
      (fun b hb1 hb2 => hall b (by omega) hb2)
    refine ⟨m, hm, ?_⟩
    rw [runSlotAux_retry_step fenv tenv apiKey x msg hf hlt, hrec]
    have : MAX_ATTEMPTS_PER_WORD - (x + 1) + 1 = MAX_ATTEMPTS_PER_WORD - x := by
      rw [max_attempts_eq] at *
      omega
    simp only
    rw [this]

lemma runSlotAux_errored_all_fail (fenv : ℕ → ℕ → FetchRound)
    (tenv : ℕ → TransNet) (apiKey : Option String) (attempts : ℕ) :
    (runSlotAux fenv tenv apiKey attempts).errored = true →
      ∀ b, attempts + 1 ≤ b → b ≤ MAX_ATTEMPTS_PER_WORD →
        ∃ m, fetchWordFromAPI (fenv b) 0 = Except.error m := by
  refine runSlotAux.induct fenv tenv apiKey
    (fun attempts => (runSlotAux fenv tenv apiKey attempts).errored = true →
      ∀ b, attempts + 1 ≤ b → b ≤ MAX_ATTEMPTS_PER_WORD →
        ∃ m, fetchWordFromAPI (fenv b) 0 = Except.error m)
    ?_ ?_ ?_ attempts
  · intro x w hf herr
    rw [runSlotAux_ok_step fenv tenv apiKey x w hf] at herr
    exact absurd herr (by simp)
  · intro x msg hf hge herr b hb1 hb2
    obtain rfl : b = x + 1 := by omega
    exact ⟨msg, hf⟩
  · intro x msg hf hlt ih herr b hb1 hb2
    rw [runSlotAux_retry_step fenv tenv apiKey x msg hf hlt] at herr
    rcases Nat.eq_or_lt_of_le hb1 with hb | hb
    · exact ⟨msg, by rw [hb] at hf; exact hf⟩
    · exact ih herr b (by omega) hb2

lemma runSlotAux_success_shape (fenv : ℕ → ℕ → FetchRound)
    (tenv : ℕ → TransNet) (apiKey : Option String) (attempts : ℕ) :
    attempts < MAX_ATTEMPTS_PER_WORD →
      (runSlotAux fenv tenv apiKey attempts).errored = false →
      ∃ a, attempts + 1 ≤ a ∧ a ≤ MAX_ATTEMPTS_PER_WORD ∧
        fetchWordFromAPI (fenv a) 0 =
          Except.ok ((runSlotAux fenv tenv apiKey attempts).pair.english) ∧
        (runSlotAux fenv tenv apiKey attempts).pair.korean =
          translateEnglishToKorean apiKey (tenv a)
            ((runSlotAux fenv tenv apiKey attempts).pair.english) := by
  refine runSlotAux.induct fenv tenv apiKey
    (fun attempts => attempts < MAX_ATTEMPTS_PER_WORD →
      (runSlotAux fenv tenv apiKey attempts).errored = false →
      ∃ a, attempts + 1 ≤ a ∧ a ≤ MAX_ATTEMPTS_PER_WORD ∧
        fetchWordFromAPI (fenv a) 0 =
          Except.ok ((runSlotAux fenv tenv apiKey attempts).pair.english) ∧
        (runSlotAux fenv tenv apiKey attempts).pair.korean =
          translateEnglishToKorean apiKey (tenv a)
            ((runSlotAux fenv tenv apiKey attempts).pair.english))
    ?_ ?_ ?_ attempts
  · intro x w hf hx hok
    rw [runSlotAux_ok_step fenv tenv apiKey x w hf]
    exact ⟨x + 1, le_refl _, hx, hf, rfl⟩
  · intro x msg hf hge hx hok
    rw [runSlotAux_exhaust_step fenv tenv apiKey x msg hf hge] at hok
    exact absurd hok (by simp)
  · intro x msg hf hlt ih hx hok
    rw [runSlotAux_retry_step fenv tenv apiKey x msg hf hlt] at hok ⊢
    obtain ⟨a, ha1, ha2, ha3, ha4⟩ := ih (by omega) hok
    exact ⟨a, by omega, ha2, ha3, ha4⟩

lemma runSlotAux_tenv_irrel (fenv : ℕ → ℕ → FetchRound)
    (tenv tenv' : ℕ → TransNet) (apiKey : Option String) (attempts : ℕ) :
    (runSlotAux fenv tenv apiKey attempts).errored =
        (runSlotAux fenv tenv' apiKey attempts).errored ∧
      (runSlotAux fenv tenv apiKey attempts).attemptsUsed =
        (runSlotAux fenv tenv' apiKey attempts).attemptsUsed ∧
      (runSlotAux fenv tenv apiKey attempts).pair.english =
        (runSlotAux fenv tenv' apiKey attempts).pair.english := by
  refine runSlotAux.induct fenv tenv apiKey
    (fun attempts =>
      (runSlotAux fenv tenv apiKey attempts).errored =
          (runSlotAux fenv tenv' apiKey attempts).errored ∧
        (runSlotAux fenv tenv apiKey attempts).attemptsUsed =
          (runSlotAux fenv tenv' apiKey attempts).attemptsUsed ∧
        (runSlotAux fenv tenv apiKey attempts).pair.english =
          (runSlotAux fenv tenv' apiKey attempts).pair.english)
    ?_ ?_ ?_ attempts
  · intro x w hf
    rw [runSlotAux_ok_step fenv tenv apiKey x w hf,
      runSlotAux_ok_step fenv tenv' apiKey x w hf]
    exact ⟨rfl, rfl, rfl⟩
  · intro x msg hf hge
    rw [runSlotAux_exhaust_step fenv tenv apiKey x msg hf hge,
      runSlotAux_exhaust_step fenv tenv' apiKey x msg hf hge]
    exact ⟨rfl, rfl, rfl⟩
  · intro x msg hf hlt ih
    rw [runSlotAux_retry_step fenv tenv apiKey x msg hf hlt,
      runSlotAux_retry_step fenv tenv' apiKey x msg hf hlt]
    obtain ⟨ih1, ih2, ih3⟩ := ih
    exact ⟨ih1, by dsimp only; rw [ih2], ih3⟩

/-! ## Claim theorems -/

/-- C1: for every requested count `N ≥ 1`, the session loader
`fetchAndTranslateWords` produces a word list of length exactly `N`, and
every slot `i < N` is filled with the (real or placeholder) pair produced by
processing slot `i`; the loop never aborts early. -/
theorem loadSession_length (Fenv : ℕ → ℕ → ℕ → FetchRound)
    (Tenv : ℕ → ℕ → TransNet) (apiKey : Option String) (count : ℕ)
    (hcount : 1 ≤ count) :
    (fetchAndTranslateWords Fenv Tenv apiKey count).words.length = count ∧
      ∀ i, i < count →
        (fetchAndTranslateWords Fenv Tenv apiKey count).words[i]? =
          some (runSlot (Fenv i) (Tenv i) apiKey).pair := by
  constructor
  · show (loaderLoop Fenv Tenv apiKey count 0).1.length = count
    rw [loaderLoop_length]
    omega
  · intro i hi
    show (loaderLoop Fenv Tenv apiKey count 0).1[i]? = _
    have := loaderLoop_getElem Fenv Tenv apiKey count 0 i (by omega)
    simpa using this

theorem loadSession_length_witness :
    1 ≤ 3 ∧
      (fetchAndTranslateWords (fun _ _ _ => FetchRound.word "apple" true)
        (fun _ _ => TransNet.ok "사과") (some "key") 3).words.length = 3 :=
  ⟨by decide,
    (loadSession_length (fun _ _ _ => FetchRound.word "apple" true)
      (fun _ _ => TransNet.ok "사과") (some "key") 3 (by decide)).1⟩

/-- C2: each slot makes at most `MAX_ATTEMPTS_PER_WORD = 5` attempts; if all
5 attempts fail, the slot contributes exactly one placeholder pair whose
source is the error-word marker and whose target is the truncated message of
the 5th failure, the partial-failure flag is recorded, and every slot of the
session still gets exactly one entry (the loop continues instead of
aborting). -/
theorem slot_retry_bound (fenv : ℕ → ℕ → FetchRound) (tenv : ℕ → TransNet)
    (apiKey : Option String) :
    (runSlot fenv tenv apiKey).attemptsUsed ≤ MAX_ATTEMPTS_PER_WORD ∧
      ((∀ b, 1 ≤ b → b ≤ MAX_ATTEMPTS_PER_WORD →
          ∃ m, fetchWordFromAPI (fenv b) 0 = Except.error m) →
        ∃ m, fetchWordFromAPI (fenv MAX_ATTEMPTS_PER_WORD) 0 = Except.error m ∧
          runSlot fenv tenv apiKey =
            { pair :=
                { english := "오류 단어"
                  korean := "로딩 실패: " ++
                    (if m = "" then "알 수 없는 오류" else m.take 30) ++ "..." }
              errored := true
              attemptsUsed := MAX_ATTEMPTS_PER_WORD }) ∧
      ∀ Fenv Tenv count i, i < count →
        (fetchAndTranslateWords Fenv Tenv apiKey count).words[i]? =
          some (runSlot (Fenv i) (Tenv i) apiKey).pair := by
  refine ⟨?_, ?_, ?_⟩
  · have := runSlotAux_attempts_le fenv tenv apiKey 0
      (by rw [max_attempts_eq]; omega)
    unfold runSlot
    omega
  · intro hall
    obtain ⟨m, hm, hrec⟩ := runSlotAux_all_fail fenv tenv apiKey 0
      (by rw [max_attempts_eq]; omega) (fun b hb1 hb2 => hall b hb1 hb2)
    refine ⟨m, hm, ?_⟩
    unfold runSlot
    rw [hrec, Nat.sub_zero]
  · intro Fenv Tenv count i hi
    show (loaderLoop Fenv Tenv apiKey count 0).1[i]? = _
    have := loaderLoop_getElem Fenv Tenv apiKey count 0 i (by omega)
    simpa using this

theorem slot_retry_bound_witness :
    (∀ b, 1 ≤ b → b ≤ MAX_ATTEMPTS_PER_WORD →
      ∃ m, fetchWordFromAPI ((fun _ _ => FetchRound.notOk) b) 0 =
        Except.error m) ∧
      ∃ m, fetchWordFromAPI
          ((fun _ _ => FetchRound.notOk) MAX_ATTEMPTS_PER_WORD) 0 =
            Except.error m ∧
        runSlot (fun _ _ => FetchRound.notOk) (fun _ => TransNet.ok "사과")
            (some "key") =
          { pair :=
              { english := "오류 단어"
                korean := "로딩 실패: " ++
                  (if m = "" then "알 수 없는 오류" else m.take 30) ++ "..." }
            errored := true
            attemptsUsed := MAX_ATTEMPTS_PER_WORD } := by
  have hall : ∀ b, 1 ≤ b → b ≤ MAX_ATTEMPTS_PER_WORD →
      ∃ m, fetchWordFromAPI ((fun _ _ => FetchRound.notOk) b) 0 =
        Except.error m := by
    intro b _ _
    exact ⟨"Could not fetch a random word.",
      by simp [fetchWordFromAPI, fetchWordFromAPIRec]⟩
  exact ⟨hall,
    (slot_retry_bound (fun _ _ => FetchRound.notOk)
      (fun _ => TransNet.ok "사과") (some "key")).2.1 hall⟩

/-- C3: one top-level call of the word-source client performs at most 4
word-API round trips (1 initial + 3 retries), and a dictionary-validation
failure consumes the shared retry budget exactly like a word-API fetch
failure: both step to `retryCount + 1` adding one round trip. -/
theorem fetch_retry_bound (rounds : ℕ → FetchRound) :
    (fetchWordFromAPIRec rounds 0).2 ≤ 4 ∧
      (∀ r w, r < 3 → rounds r = FetchRound.word w false →
        fetchWordFromAPIRec rounds r =
          ((fetchWordFromAPIRec rounds (r + 1)).1,
            (fetchWordFromAPIRec rounds (r + 1)).2 + 1)) ∧
      ∀ r, r < 3 → rounds r = FetchRound.notOk →
        fetchWordFromAPIRec rounds r =
          ((fetchWordFromAPIRec rounds (r + 1)).1,
            (fetchWordFromAPIRec rounds (r + 1)).2 + 1) := by
  refine ⟨?_, ?_, ?_⟩
  · have := fetchRec_attempts_le rounds 0
    omega
  · intro r w hlt hr
    rw [fetchRec_invalidWord_step rounds r w hr, dif_pos hlt]
  · intro r hlt hr
    rw [fetchRec_notOk_step rounds r hr, dif_pos hlt]

theorem fetch_retry_bound_witness :
    fetchWordFromAPIRec
        (fun i => if i = 0 then FetchRound.word "x" false else FetchRound.notOk)
        0 =
      ((fetchWordFromAPIRec
          (fun i => if i = 0 then FetchRound.word "x" false else FetchRound.notOk)
          1).1,
        (fetchWordFromAPIRec
          (fun i => if i = 0 then FetchRound.word "x" false else FetchRound.notOk)
          1).2 + 1) :=
  (fetch_retry_bound
    (fun i => if i = 0 then FetchRound.word "x" false else FetchRound.notOk)).2.1
    0 "x" (by decide) (by simp)

/-- C4: the translation client is a total function into strings (it never
throws), and with the API credential absent it returns the fixed missing-key
string, independently of the network outcome and of the input word (no
network request is consulted). -/
theorem translate_never_throws (apiKey : Option String) (net net' : TransNet)
    (w w' : String) :
    (∃ s : String, translateEnglishToKorean apiKey net w = s) ∧
      translateEnglishToKorean none net w = "번역 API 키 없음" ∧
      translateEnglishToKorean none net w =
        translateEnglishToKorean none net' w' :=
  ⟨⟨translateEnglishToKorean apiKey net w, rfl⟩, rfl, rfl⟩

/-- C5: the word-source client returns a word only if some round fetched that
word and its dictionary lookup succeeded; and a slot that completes without
the placeholder got its English word from a successful `fetchWordFromAPI`
call and its Korean text by translating exactly that word. -/
theorem dict_gate (rounds : ℕ → FetchRound) (fenv : ℕ → ℕ → FetchRound)
    (tenv : ℕ → TransNet) (apiKey : Option String) :
    (∀ r w, fetchWordFromAPI rounds r = Except.ok w →
      ∃ i, r ≤ i ∧ rounds i = FetchRound.word w true) ∧
      ((runSlot fenv tenv apiKey).errored = false →
        ∃ a, 1 ≤ a ∧ a ≤ MAX_ATTEMPTS_PER_WORD ∧
          fetchWordFromAPI (fenv a) 0 =
            Except.ok ((runSlot fenv tenv apiKey).pair.english) ∧
          (runSlot fenv tenv apiKey).pair.korean =
            translateEnglishToKorean apiKey (tenv a)
              ((runSlot fenv tenv apiKey).pair.english)) := by
  constructor
  · intro r w hw
    exact fetchRec_ok_dict_accepted rounds r w hw
  · intro hok
    exact runSlotAux_success_shape fenv tenv apiKey 0
      (by rw [max_attempts_eq]; omega) hok

theorem dict_gate_witness :
    ∃ i, 0 ≤ i ∧
      (fun _ : ℕ => FetchRound.word "apple" true) i =
        FetchRound.word "apple" true :=
  (dict_gate (fun _ => FetchRound.word "apple" true)
      (fun _ _ => FetchRound.word "apple" true) (fun _ => TransNet.ok "사과")
      (some "key")).1 0 "apple"
    (by simp [fetchWordFromAPI, fetchWordFromAPIRec])

/-- C6: from any cursor `i ≥ 1` (within the list), `handlePreviousWord` sets
the cursor to `i - 1`; at cursor 0 it leaves the cursor (and screen)
unchanged and reports the recoverable no-previous-word condition; at the last
index, `handleNextWord` moves to the finished screen (3) without changing the
cursor, so no out-of-range index is produced. -/
theorem cursor_navigation (s : UIState) :
    (1 ≤ s.currentWordIndex →
        s.currentWordIndex ≤ s.allWordsForSession.length - 1 →
        (handlePreviousWord s).currentWordIndex = s.currentWordIndex - 1) ∧
      (s.currentWordIndex = 0 →
        (handlePreviousWord s).currentWordIndex = s.currentWordIndex ∧
          (handlePreviousWord s).currentScreen = s.currentScreen ∧
          (handlePreviousWord s).error = some "이전 단어가 없습니다.") ∧
      (s.currentWordIndex + 1 = s.allWordsForSession.length →
        (handleNextWord s).currentScreen = 3 ∧
          (handleNextWord s).currentWordIndex = s.currentWordIndex) := by
  refine ⟨?_, ?_, ?_⟩
  · intro h1 _
    unfold handlePreviousWord
    rw [if_pos (by omega : s.currentWordIndex > 0)]
  · intro h0
    unfold handlePreviousWord
    rw [if_neg (by omega : ¬ s.currentWordIndex > 0)]
    exact ⟨rfl, rfl, rfl⟩
  · intro hlast
    unfold handleNextWord
    rw [if_neg (by omega : ¬ s.currentWordIndex + 1 < s.allWordsForSession.length)]
    exact ⟨rfl, rfl⟩

theorem cursor_navigation_witness :
    ((handlePreviousWord
        { currentScreen := 2, currentWordIndex := 1
          currentWordData := some { english := "b", korean := "ㄴ" }
          allWordsForSession :=
            [{ english := "a", korean := "ㄱ" }, { english := "b", korean := "ㄴ" }]
          error := none }).currentWordIndex = 0) ∧
      ((handlePreviousWord
        { currentScreen := 2, currentWordIndex := 0
          currentWordData := some { english := "a", korean := "ㄱ" }
          allWordsForSession := [{ english := "a", korean := "ㄱ" }]
          error := none }).error = some "이전 단어가 없습니다.") ∧
      ((handleNextWord
        { currentScreen := 2, currentWordIndex := 0
          currentWordData := some { english := "a", korean := "ㄱ" }
          allWordsForSession := [{ english := "a", korean := "ㄱ" }]
          error := none }).currentScreen = 3) :=
  ⟨(cursor_navigation _).1 (by decide) (by decide),
    ((cursor_navigation _).2.1 (by decide)).2.2,
    ((cursor_navigation _).2.2 (by decide)).1⟩

/-- C7: both navigation handlers preserve the cursor invariant: the cursor
stays strictly below the session-list length and the displayed word data
stays equal to the list element at the cursor. -/
theorem navigation_preserves_cursorInv (s : UIState) (h : cursorInv s) :
    cursorInv (handleNextWord s) ∧ cursorInv (handlePreviousWord s) := by
  obtain ⟨h1, h2⟩ := h
  constructor
  · unfold handleNextWord
    by_cases hc : s.currentWordIndex + 1 < s.allWordsForSession.length
    · rw [if_pos hc]
      exact ⟨hc, rfl⟩
    · rw [if_neg hc]
      exact ⟨h1, h2⟩
  · unfold handlePreviousWord
    by_cases hp : s.currentWordIndex > 0
    · rw [if_pos hp]
      exact ⟨by simp only; omega, rfl⟩
    · rw [if_neg hp]
      exact ⟨h1, h2⟩

theorem navigation_preserves_cursorInv_witness :
    cursorInv (handleNextWord
        { currentScreen := 2, currentWordIndex := 0
          currentWordData := some { english := "a", korean := "ㄱ" }
          allWordsForSession :=
            [{ english := "a", korean := "ㄱ" }, { english := "b", korean := "ㄴ" }]
          error := none }) ∧
      cursorInv (handlePreviousWord
        { currentScreen := 2, currentWordIndex := 0
          currentWordData := some { english := "a", korean := "ㄱ" }
          allWordsForSession :=
            [{ english := "a", korean := "ㄱ" }, { english := "b", korean := "ㄴ" }]
          error := none }) :=
  navigation_preserves_cursorInv _ (by decide)

/-- C8: with the translation credential absent and requested count 1, a
session load whose single word fetch succeeds yields exactly one pair whose
target is the fixed missing-key message. -/
theorem missing_key_scenario (Fenv : ℕ → ℕ → ℕ → FetchRound)
    (Tenv : ℕ → ℕ → TransNet) (w : String)
    (h : fetchWordFromAPI (Fenv 0 1) 0 = Except.ok w) :
    (fetchAndTranslateWords Fenv Tenv none 1).words =
      [{ english := w, korean := "번역 API 키 없음" }] := by
  show (loaderLoop Fenv Tenv none 1 0).1 = _
  rw [loaderLoop_step Fenv Tenv none 1 0 (by omega)]
  dsimp only
  rw [loaderLoop_end Fenv Tenv none 1 1 (by omega)]
  unfold runSlot
  rw [runSlotAux_ok_step (Fenv 0) (Tenv 0) none 0 w h]
  rfl

theorem missing_key_scenario_witness :
    (fetchAndTranslateWords (fun _ _ _ => FetchRound.word "apple" true)
        (fun _ _ => TransNet.ok "사과") none 1).words =
      [{ english := "apple", korean := "번역 API 키 없음" }] :=
  missing_key_scenario (fun _ _ _ => FetchRound.word "apple" true)
    (fun _ _ => TransNet.ok "사과") "apple"
    (by simp [fetchWordFromAPI, fetchWordFromAPIRec])

/-- C9: on a translation failure the client classifies the error message:
if it contains "API key not valid" it returns the invalid-key string, else if
it contains "daily limit exceeded" the quota string, otherwise the generic
failure string embedding the raw message (for a non-ok HTTP status the raw
message is `Translation API error: <api message>`). -/
theorem translation_error_classification (k w m : String) :
    translateEnglishToKorean (some k) (TransNet.thrown m) w =
        (if strIncludes m "API key not valid" then
          "번역 실패: API 키가 유효하지 않습니다."
        else if strIncludes m "daily limit exceeded" then
          "번역 실패: 일일 사용량 한도 초과."
        else "번역 실패: " ++ m) ∧
      translateEnglishToKorean (some k) (TransNet.badStatus m) w =
        (if strIncludes ("Translation API error: " ++ m) "API key not valid" then
          "번역 실패: API 키가 유효하지 않습니다."
        else if strIncludes ("Translation API error: " ++ m) "daily limit exceeded" then
          "번역 실패: 일일 사용량 한도 초과."
        else "번역 실패: " ++ ("Translation API error: " ++ m)) :=
  ⟨rfl, rfl⟩

/-- C10: a translation failure never consumes a loader retry attempt: any
attempt whose word fetch succeeds completes its slot immediately (one
attempt, no error flag, whatever the translation outcome); a slot that ended
in the placeholder had all 5 word fetches fail; and the slot's control flow
(error flag, attempts used, chosen English word) is independent of the
translation oracle. -/
theorem translation_failure_no_attempt (fenv : ℕ → ℕ → FetchRound)
    (tenv tenv' : ℕ → TransNet) (apiKey : Option String) :
    (∀ a w, fetchWordFromAPI (fenv (a + 1)) 0 = Except.ok w →
        runSlotAux fenv tenv apiKey a =
          { pair :=
              { english := w
                korean := translateEnglishToKorean apiKey (tenv (a + 1)) w }
            errored := false
            attemptsUsed := 1 }) ∧
      ((runSlot fenv tenv apiKey).errored = true →
        ∀ b, 1 ≤ b → b ≤ MAX_ATTEMPTS_PER_WORD →
          ∃ m, fetchWordFromAPI (fenv b) 0 = Except.error m) ∧
      (runSlot fenv tenv apiKey).errored = (runSlot fenv tenv' apiKey).errored ∧
      (runSlot fenv tenv apiKey).attemptsUsed =
        (runSlot fenv tenv' apiKey).attemptsUsed ∧
      (runSlot fenv tenv apiKey).pair.english =
        (runSlot fenv tenv' apiKey).pair.english := by
  refine ⟨?_, ?_, ?_⟩
  · intro a w hf
    exact runSlotAux_ok_step fenv tenv apiKey a w hf
  · intro herr b hb1 hb2
    exact runSlotAux_errored_all_fail fenv tenv apiKey 0 herr b hb1 hb2
  · exact runSlotAux_tenv_irrel fenv tenv tenv' apiKey 0

theorem translation_failure_no_attempt_witness :
    runSlotAux (fun _ _ => FetchRound.word "apple" true)
        (fun _ => TransNet.thrown "daily limit exceeded") (some "key") 0 =
      { pair :=
          { english := "apple"
            korean := translateEnglishToKorean (some "key")
              (TransNet.thrown "daily limit exceeded") "apple" }
        errored := false
        attemptsUsed := 1 } :=
  (translation_failure_no_attempt (fun _ _ => FetchRound.word "apple" true)
      (fun _ => TransNet.thrown "daily limit exceeded")
      (fun _ => TransNet.ok "사과") (some "key")).1 0 "apple"
    (by simp [fetchWordFromAPI, fetchWordFromAPIRec])

end WordApp
